import Mathlib

/-!
Verification development for the riassuntore pipeline.

The development shallow-embeds the two core components of the repository:

* `ai_processor.py` — the synthesis orchestrator (`AIProcessor.process_text`,
  `_generate_summary_for_style`, `get_processing_stats`, `reset_stats`);
* `document_processor.py` — the format extractor (`DocumentProcessor.extract_text`
  and the per-format extractors).

External effects are modelled as explicit oracles:

* the generation capability is a function `String → GenResult` giving, per style,
  either a fault (any exception raised by the API call, including a malformed
  response) or the returned string;
* the file system is a `FileSystem` record giving existence, the per-encoding
  decode result of a text file (`none` models a `UnicodeDecodeError`),
  the per-page extraction results of a PDF (`none` models a page whose
  `extract_text` raises), and the paragraph/table contents of a DOCX
  (`none` models a `docx.Document` open failure).

Python `str.strip`, `str.split` and `"\n".join` are embedded as structurally
recursive functions over the underlying character lists (`pyStrip`,
`pyWordCount`, `joinNL`); the whitespace predicate is `Char.isWhitespace`
(the ASCII subset of the whitespace set stripped by Python).
Mutable instance state (the statistics counters, the two cache fields) is
passed and returned explicitly.  A method that raises is modelled with
`Except`; when the Python object outlives the raise, the unchanged state is
returned alongside the error value.
-/

set_option maxRecDepth 20000

namespace Riassuntore

/-- Equality of `Except` values is decidable whenever it is on both sides;
used to evaluate the embedding on concrete inputs. -/
instance {ε α : Type} [DecidableEq ε] [DecidableEq α] :
    DecidableEq (Except ε α) := fun
  | .error e₁, .error e₂ =>
    if h : e₁ = e₂ then .isTrue (by rw [h]) else .isFalse (by simp [h])
  | .error _, .ok _ => .isFalse (by simp)
  | .ok _, .error _ => .isFalse (by simp)
  | .ok a₁, .ok a₂ =>
    if h : a₁ = a₂ then .isTrue (by rw [h]) else .isFalse (by simp [h])

/-- Embedding of Python `str.strip()` on the character list: drop whitespace
from the front, then from the back. -/
def stripList (l : List Char) : List Char :=
  ((l.dropWhile Char.isWhitespace).reverse.dropWhile Char.isWhitespace).reverse

/-- Embedding of Python `str.strip()` on `String`. -/
def pyStrip (s : String) : String :=
  String.mk (stripList s.data)

/-- Embedding of Python `"\n".join(pieces)`. -/
def joinNL : List String → String
  | [] => ""
  | [s] => s
  | s :: rest => s ++ "\n" ++ joinNL rest

/-- Helper for `pyWordCount`: counts maximal non-whitespace runs; the flag
records whether the scan is currently inside a word. -/
def countWords : List Char → Bool → Nat
  | [], _ => 0
  | c :: rest, inWord =>
    if c.isWhitespace then countWords rest false
    else (if inWord then 0 else 1) + countWords rest true

/-- Embedding of Python `len(text.split())`: the number of whitespace-separated
words of the text. -/
def pyWordCount (s : String) : Nat := countWords s.data false

/-! ### Synthesis orchestrator (`ai_processor.py`) -/

/-- The four style identifiers, in the order of `PromptManager.get_system_prompts`
(the catalog order, also the default request order in `process_text`). -/
def catalog : List String := ["didactic", "client", "developers", "management"]

/-- Outcome of one invocation of the generation capability for one style:
either any exception raised by the API call (`fault`), or the returned
string content. -/
inductive GenResult where
  | fault (msg : String)
  | output (content : String)

/-- The `processing_stats` dictionary of `AIProcessor`. -/
structure Stats where
  total_requests : Nat
  successful_requests : Nat
  failed_requests : Nat
deriving DecidableEq

/-- The counters as initialised by `AIProcessor.__init__`. -/
def Stats.init : Stats := ⟨0, 0, 0⟩

/-- `AIProcessor.reset_stats`: replaces the counters with zeros. -/
def reset_stats : Stats := ⟨0, 0, 0⟩

/-- Head of the error-tagged placeholder built in the `except` branch of
`_generate_summary_for_style` (quotes around the style name elided). -/
def errTagHead : String := "[ERRORE] Errore nella generazione per stile "

/-- The error-tagged placeholder string
`"[ERRORE] Errore nella generazione per stile <style>: <msg>"`. -/
def errorTag (style msg : String) : String :=
  errTagHead ++ style ++ ": " ++ msg

/-- Message of the exception raised when the capability returns an
empty/whitespace-only string (quotes elided). -/
def emptyContentMsg (style : String) : String :=
  "GPT-4 ha restituito contenuto vuoto per stile " ++ style

/-- The sentinel stored in the slots of styles that were not requested. -/
def notRequested : String := "[NON GENERATO] Stile non richiesto"

/-- Whether one generation attempt ends in the `except` branch of
`_generate_summary_for_style`: a capability fault, or a returned string that
strips to empty. -/
def attemptFails (g : GenResult) : Bool :=
  match g with
  | .fault _ => true
  | .output content => pyStrip content == ""

/-- The string returned by `_generate_summary_for_style` for a style (it does
not depend on the counters). -/
def styleOutcome (gen : String → GenResult) (style : String) : String :=
  match gen style with
  | .fault msg => errorTag style msg
  | .output content =>
    if pyStrip content == "" then errorTag style (emptyContentMsg style)
    else pyStrip content

/-- The effect of one generation attempt on the counters: `total_requests`
is incremented first, then exactly one of the other two counters. -/
def statsAfter (st : Stats) (failed : Bool) : Stats :=
  if failed then
    { total_requests := st.total_requests + 1
      successful_requests := st.successful_requests
      failed_requests := st.failed_requests + 1 }
  else
    { total_requests := st.total_requests + 1
      successful_requests := st.successful_requests + 1
      failed_requests := st.failed_requests }

/-- `AIProcessor._generate_summary_for_style`, for an already-validated style
(`process_text` validates the request against the same catalog, so the
unsupported-style `ValueError` branch cannot fire there).  `total_requests`
is incremented at the top of the `try` block; a fault or an
empty/whitespace-only returned string is caught by the `except` branch, which
increments `failed_requests` and returns the error-tagged placeholder; a
non-empty stripped content increments `successful_requests` and is returned. -/
def generate_summary_for_style (gen : String → GenResult) (st : Stats)
    (style : String) : String × Stats :=
  let st1 : Stats := { st with total_requests := st.total_requests + 1 }
  match gen style with
  | .fault msg =>
    (errorTag style msg, { st1 with failed_requests := st1.failed_requests + 1 })
  | .output content =>
    let c := pyStrip content
    if c == "" then
      (errorTag style (emptyContentMsg style),
       { st1 with failed_requests := st1.failed_requests + 1 })
    else
      (c, { st1 with successful_requests := st1.successful_requests + 1 })

/-- Python-dict insertion for the `results` mapping: replaces an existing
binding, else appends. -/
def dinsert : List (String × String) → String → String → List (String × String)
  | [], k, v => [(k, v)]
  | (k₁, v₁) :: rest, k, v =>
    if k₁ = k then (k, v) :: rest else (k₁, v₁) :: dinsert rest k v

/-- Python-dict lookup for the `results` mapping. -/
def dlookup : List (String × String) → String → Option String
  | [], _ => none
  | (k₁, v₁) :: rest, k => if k₁ = k then some v₁ else dlookup rest k

/-- The precondition failures of `process_text` (both raised as `ValueError`
before any generation call). -/
inductive ProcessError where
  | inputTooShort (msg : String)
  | invalidStyle (offending : List String)
deriving DecidableEq

/-- The `processing_metadata` dictionary built by `process_text`. -/
structure Metadata where
  input_length : Nat
  input_words : Nat
  styles_processed : List String
  processing_errors : List String
deriving DecidableEq

/-- The `ProcessingResult` dataclass. -/
structure ProcessingResult where
  didactic : String
  client : String
  developers : String
  management : String
  original_text : String
  metadata : Metadata
deriving DecidableEq

/-- The mutable state threaded through the per-style loop of `process_text`.
`trace` additionally records, in order, the styles for which the generation
capability is invoked (one entry per chat-completion call issued). -/
structure LoopState where
  results : List (String × String)
  styles_processed : List String
  processing_errors : List String
  stats : Stats
  trace : List String
deriving DecidableEq

/-- One iteration of the per-style loop of `process_text`.  The `except`
branch of the loop (the only place appending to `processing_errors`) is
unreachable: `_generate_summary_for_style` handles its own generation
failures and returns a string, and its unsupported-style `ValueError` cannot
fire for a validated request — so `processing_errors` is never extended and
the style is always appended to `styles_processed`. -/
def processStyle (gen : String → GenResult) (acc : LoopState)
    (style : String) : LoopState :=
  let p := generate_summary_for_style gen acc.stats style
  { results := dinsert acc.results style p.1
    styles_processed := acc.styles_processed ++ [style]
    processing_errors := acc.processing_errors
    stats := p.2
    trace := acc.trace ++ [style] }

/-- The post-loop fill of `process_text`: a canonical slot missing from
`results` receives the not-requested sentinel. -/
def finalSlot (results : List (String × String)) (style : String) : String :=
  match dlookup results style with
  | some v => v
  | none => notRequested

/-- `AIProcessor.process_text`.  The result triple is
(returned value or raised `ValueError`, counters after the call, the ordered
trace of generation invocations issued during the call).  Precondition
failures raise before the loop, leaving the counters unchanged and issuing no
invocation.  The over-50000-character check only prints a warning and has no
observable effect here. -/
def process_text (gen : String → GenResult) (st : Stats) (text : String)
    (stylesOpt : Option (List String)) :
    Except ProcessError ProcessingResult × Stats × List String :=
  if pyStrip text == "" then
    (.error (.inputTooShort "Testo di input vuoto o non valido"), st, [])
  else if (pyStrip text).length < 50 then
    (.error (.inputTooShort "Testo troppo corto (minimo 50 caratteri)"), st, [])
  else
    let styles := stylesOpt.getD catalog
    let invalid_styles := styles.filter (fun s => !(catalog.contains s))
    if !invalid_styles.isEmpty then
      (.error (.invalidStyle invalid_styles), st, [])
    else
      let fin := styles.foldl (processStyle gen) ⟨[], [], [], st, []⟩
      (.ok { didactic := finalSlot fin.results "didactic"
             client := finalSlot fin.results "client"
             developers := finalSlot fin.results "developers"
             management := finalSlot fin.results "management"
             original_text := text
             metadata := { input_length := text.length
                           input_words := pyWordCount text
                           styles_processed := fin.styles_processed
                           processing_errors := fin.processing_errors } },
       fin.stats, fin.trace)

/-- The snapshot returned by `get_processing_stats`; `success_rate` is modelled
as a rational. -/
structure StatsSnapshot where
  total_requests : Nat
  successful_requests : Nat
  failed_requests : Nat
  success_rate : ℚ
deriving DecidableEq

/-- `AIProcessor.get_processing_stats`. -/
def get_processing_stats (st : Stats) : StatsSnapshot :=
  { total_requests := st.total_requests
    successful_requests := st.successful_requests
    failed_requests := st.failed_requests
    success_rate :=
      if 0 < st.total_requests then
        (st.successful_requests : ℚ) / (st.total_requests : ℚ)
      else 0 }

/-- A slot of a `ProcessingResult`, addressed by style id (callers only use
ids drawn from the catalog). -/
def slotOf (r : ProcessingResult) (s : String) : String :=
  if s = "didactic" then r.didactic
  else if s = "client" then r.client
  else if s = "developers" then r.developers
  else r.management

/-- A string carrying the error tag: its first eight characters are
`[ERRORE]`. -/
def isErrorTagged (s : String) : Prop := s.data.take 8 = "[ERRORE]".data

/-! ### Format extractor (`document_processor.py`) -/

/-- The members of the encoding fallback chain of `extract_text_from_txt`. -/
inductive Encoding where
  | utf8 | utf16 | latin1 | cp1252
deriving DecidableEq

/-- The fallback chain, in the order tried by the source. -/
def encodings : List Encoding := [.utf8, .utf16, .latin1, .cp1252]

/-- The failure kinds of the extractor, keyed on the exception family raised
by the source (every inner exception of the PDF/DOCX/TXT helpers is re-raised
wrapped in a message; the constructor records its identity). -/
inductive DPError where
  | notFound (path : String)
  | unsupportedFormat (ext : String)
  | extractionEmpty (fmt : String)
  | readError (fmt msg : String)
  | decodingFailure
deriving DecidableEq

/-- The file-system oracle: existence, per-encoding decode result of a text
file (`none` = `UnicodeDecodeError`), per-page extraction results of a PDF
(outer `none` = `PdfReader` raises; inner `none` = the page raises), and the
paragraphs and tables of a DOCX (`none` = `docx.Document` raises; tables are
lists of rows of cell texts). -/
structure FileSystem where
  pathExists : String → Bool
  txtDecode : String → Encoding → Option String
  pdfPages : String → Option (List (Option String))
  docxDoc : String → Option (List String × List (List (List String)))

/-- The two cache fields of `DocumentProcessor`. -/
structure DPState where
  last_processed_file : Option String
  last_extracted_text : Option String
deriving DecidableEq

/-- The cache fields as initialised by `DocumentProcessor.__init__`. -/
def DPState.init : DPState := ⟨none, none⟩

/-- `Path(file_path).suffix` restricted to `/`-separated paths: the part of the
final component from its last dot on, empty when the last dot is the first
character of the component, is its last character, or is absent. -/
def afterLastChar (c : Char) : List Char → Option (List Char)
  | [] => none
  | x :: xs =>
    match afterLastChar c xs with
    | some r => some r
    | none => if x = c then some xs else none

/-- `Path(file_path).suffix`. -/
def pathSuffix (p : String) : String :=
  let name :=
    match afterLastChar '/' p.data with
    | some r => r
    | none => p.data
  match afterLastChar '.' name with
  | none => ""
  | some post =>
    if name.length = post.length + 1 then ""
    else if post.isEmpty then ""
    else String.mk ('.' :: post)

/-- Embedding of Python `str.lower()` on the character list. -/
def lowerStr (s : String) : String := String.mk (s.data.map Char.toLower)

/-- `DocumentProcessor.SUPPORTED_EXTENSIONS`. -/
def SUPPORTED_EXTENSIONS : List String := [".pdf", ".docx", ".doc", ".txt"]

/-- `DocumentProcessor.is_supported_format`. -/
def is_supported_format (path : String) : Bool :=
  SUPPORTED_EXTENSIONS.contains (lowerStr (pathSuffix path))

/-- The page loop of `extract_text_from_pdf`: a page whose extraction raises
is skipped, a page whose text strips to empty is not appended, any other page
contributes its (unstripped) text. -/
def pdfCollect : List (Option String) → List String
  | [] => []
  | none :: rest => pdfCollect rest
  | some t :: rest =>
    if pyStrip t == "" then pdfCollect rest else t :: pdfCollect rest

/-- `DocumentProcessor.extract_text_from_pdf`. -/
def extract_text_from_pdf (fs : FileSystem) (path : String) :
    Except DPError String :=
  if fs.pathExists path then
    match fs.pdfPages path with
    | none => .error (.readError "pdf" "PdfReader")
    | some pages =>
      let extracted := pyStrip (joinNL (pdfCollect pages))
      if extracted == "" then .error (.extractionEmpty "pdf")
      else .ok extracted
  else .error (.notFound path)

/-- `DocumentProcessor.extract_text_from_docx`: non-empty stripped paragraph
texts in order, then non-empty stripped cell texts in row-major, table order. -/
def extract_text_from_docx (fs : FileSystem) (path : String) :
    Except DPError String :=
  if fs.pathExists path then
    match fs.docxDoc path with
    | none => .error (.readError "docx" "Document")
    | some doc =>
      let pieces :=
        (doc.1.map pyStrip).filter (fun s => !(s == "")) ++
          (((doc.2.map (fun rows => rows.flatten)).flatten).map pyStrip).filter
            (fun s => !(s == ""))
      let extracted := pyStrip (joinNL pieces)
      if extracted == "" then .error (.extractionEmpty "docx")
      else .ok extracted
  else .error (.notFound path)

/-- The encoding loop of `extract_text_from_txt`: a `UnicodeDecodeError` moves
to the next encoding; an encoding that decodes determines the outcome — its
stripped content when non-empty, else the `File TXT vuoto` exception, which
the generic `except` clause re-raises (it does not fall through to the next
encoding); exhaustion of the chain raises the decoding failure. -/
def txtAttempt (decode : Encoding → Option String) :
    List Encoding → Except DPError String
  | [] => .error .decodingFailure
  | e :: rest =>
    match decode e with
    | none => txtAttempt decode rest
    | some s =>
      let content := pyStrip s
      if content == "" then .error (.extractionEmpty "txt")
      else .ok content

/-- `DocumentProcessor.extract_text_from_txt`. -/
def extract_text_from_txt (fs : FileSystem) (path : String) :
    Except DPError String :=
  if fs.pathExists path then txtAttempt (fs.txtDecode path) encodings
  else .error (.notFound path)

/-- Follows the claim's words (not the source): the first encoding of the
chain that both decodes without error and yields non-empty stripped content
supplies the result; if no encoding in the chain succeeds, extraction fails
with the decoding failure. -/
def txtFallbackSpec (decode : Encoding → Option String) :
    List Encoding → Except DPError String
  | [] => .error .decodingFailure
  | e :: rest =>
    match decode e with
    | none => txtFallbackSpec decode rest
    | some s =>
      if pyStrip s == "" then txtFallbackSpec decode rest
      else .ok (pyStrip s)

/-- The cache test of `extract_text`:
`self.last_processed_file == file_path and self.last_extracted_text`
(the cached text must be truthy, i.e. a non-empty string). -/
def cacheHit (st : DPState) (path : String) : Option String :=
  match st.last_processed_file, st.last_extracted_text with
  | some p, some t => if p = path ∧ ¬ t = "" then some t else none
  | _, _ => none

/-- The extension router of `extract_text` (the final branch is the
defensive `ValueError` the source marks as unreachable). -/
def performExtraction (fs : FileSystem) (path : String) :
    Except DPError String :=
  let ext := lowerStr (pathSuffix path)
  if ext = ".pdf" then extract_text_from_pdf fs path
  else if ext = ".docx" ∨ ext = ".doc" then extract_text_from_docx fs path
  else if ext = ".txt" then extract_text_from_txt fs path
  else .error (.unsupportedFormat ext)

/-- `DocumentProcessor.extract_text`: unsupported-format check, then the
single-slot cache keyed on exact path equality, then the router; a successful
fresh read overwrites the cache slot, an error leaves it unchanged. -/
def extract_text (fs : FileSystem) (st : DPState) (path : String) :
    Except DPError String × DPState :=
  if !(is_supported_format path) then
    (.error (.unsupportedFormat (lowerStr (pathSuffix path))), st)
  else
    match cacheHit st path with
    | some t => (.ok t, st)
    | none =>
      match performExtraction fs path with
      | .ok t =>
        (.ok t, { last_processed_file := some path, last_extracted_text := some t })
      | .error e => (.error e, st)

/-! ### Derived notions used by the statements -/

/-- The number of requested styles whose generation attempt fails. -/
def failCount (gen : String → GenResult) (styles : List String) : Nat :=
  (styles.filter (fun s => attemptFails (gen s))).length

/-- The number of requested styles whose generation attempt succeeds. -/
def succCount (gen : String → GenResult) (styles : List String) : Nat :=
  (styles.filter (fun s => !(attemptFails (gen s)))).length

/-- An event acting on the orchestrator counters: a full `process_text` call
(with its generation oracle, input text and requested styles) or a
`reset_stats` call. -/
inductive OrchestratorEvent where
  | processCall (gen : String → GenResult) (text : String)
      (styles : Option (List String))
  | resetCall

/-- The counters after one event: a `process_text` call leaves behind the
counters it returns (unchanged when a precondition fails), a reset replaces
them with zeros. -/
def applyEvent (st : Stats) : OrchestratorEvent → Stats
  | .processCall gen text styles => (process_text gen st text styles).2.1
  | .resetCall => reset_stats

/-- The bookkeeping invariant of the counters. -/
def statsConsistent (st : Stats) : Prop :=
  st.total_requests = st.successful_requests + st.failed_requests

instance (st : Stats) : Decidable (statsConsistent st) :=
  inferInstanceAs
    (Decidable (st.total_requests = st.successful_requests + st.failed_requests))

/-! ### Concrete instances used by witnesses and counterexamples -/

/-- A generation stub failing only for `management`. -/
def gen0 : String → GenResult := fun style =>
  if style = "management" then .fault "stub failure"
  else .output ("riassunto generato in stile " ++ style)

/-- A 60-character input text (passes the 50-character precondition). -/
def text0 : String := String.mk (List.replicate 60 'a')

/-- A file system whose every path is a text file with the given UTF-8
content. -/
def fsTxt (content : String) : FileSystem :=
  { pathExists := fun _ => true
    txtDecode := fun _ e => if e = .utf8 then some content else none
    pdfPages := fun _ => none
    docxDoc := fun _ => none }

/-- A file system where no path exists (a deleted file). -/
def fsGone : FileSystem :=
  { pathExists := fun _ => false
    txtDecode := fun _ _ => none
    pdfPages := fun _ => none
    docxDoc := fun _ => none }

/-- A file system whose every path is a PDF with the given pages. -/
def fsPdf (pages : List (Option String)) : FileSystem :=
  { pathExists := fun _ => true
    txtDecode := fun _ _ => none
    pdfPages := fun _ => some pages
    docxDoc := fun _ => none }

/-- A file system whose every path is a text file that fails to decode as
UTF-8 and UTF-16 but decodes under Latin-1 (and cp1252) to the given
content. -/
def fsLatin (content : String) : FileSystem :=
  { pathExists := fun _ => true
    txtDecode := fun _ e =>
      if e = .latin1 ∨ e = .cp1252 then some content else none
    pdfPages := fun _ => none
    docxDoc := fun _ => none }

/-- A file system whose every path is a text file decoding to a single blank
under every encoding (a file containing one space byte). -/
def fsBlank : FileSystem :=
  { pathExists := fun _ => true
    txtDecode := fun _ _ => some " "
    pdfPages := fun _ => none
    docxDoc := fun _ => none }

/-- A file system whose every path is a text file that no encoding of the
chain decodes. -/
def fsUndecodable : FileSystem :=
  { pathExists := fun _ => true
    txtDecode := fun _ _ => none
    pdfPages := fun _ => none
    docxDoc := fun _ => none }

/-! ### Helper lemmas -/

theorem str_data_append (a b : String) : (a ++ b).data = a.data ++ b.data := by
  cases a
  cases b
  rfl

theorem empty_str_data : ("" : String).data = [] := by decide

theorem str_eq_empty_iff (s : String) : s = "" ↔ s.data = [] := by
  rw [String.ext_iff, empty_str_data]

theorem length_dropWhile_le' {α : Type} (p : α → Bool) (l : List α) :
    (l.dropWhile p).length ≤ l.length := by
  induction l with
  | nil => simp
  | cons a t ih =>
    rw [List.dropWhile_cons]
    by_cases h : p a = true
    · simp only [h, if_true]
      exact Nat.le_trans ih (Nat.le_succ _)
    · simp [h]

theorem dropWhile_eq_self_of_length {α : Type} (p : α → Bool) (l : List α)
    (h : (l.dropWhile p).length = l.length) : l.dropWhile p = l := by
  induction l with
  | nil => simp
  | cons a t ih =>
    rw [List.dropWhile_cons] at h ⊢
    by_cases hp : p a = true
    · rw [if_pos hp] at h
      have := length_dropWhile_le' p t
      simp at h
      omega
    · simp [hp]

theorem dropWhile_append_of_fixed {α : Type} (p : α → Bool) (l r : List α)
    (hl : l.dropWhile p = l) (hne : l ≠ []) :
    (l ++ r).dropWhile p = l ++ r := by
  cases l with
  | nil => exact absurd rfl hne
  | cons a t =>
    have hp : p a = false := by
      by_contra hcon
      have hpa : p a = true := by
        cases hpa' : p a
        · exact absurd hpa' hcon
        · rfl
      rw [List.dropWhile_cons, if_pos hpa] at hl
      have := length_dropWhile_le' p t
      have hlen := congrArg List.length hl
      simp at hlen
      omega
    rw [List.cons_append, List.dropWhile_cons, hp]
    simp

theorem stripList_length_le (l : List Char) : (stripList l).length ≤ l.length := by
  unfold stripList
  have h₁ := length_dropWhile_le' Char.isWhitespace l
  have h₂ := length_dropWhile_le' Char.isWhitespace
    (l.dropWhile Char.isWhitespace).reverse
  simp only [List.length_reverse] at *
  omega

theorem stripList_fixed_front (l : List Char) (h : stripList l = l) :
    l.dropWhile Char.isWhitespace = l := by
  have hlen := congrArg List.length h
  have h₁ := length_dropWhile_le' Char.isWhitespace l
  have h₂ := length_dropWhile_le' Char.isWhitespace
    (l.dropWhile Char.isWhitespace).reverse
  unfold stripList at hlen
  simp only [List.length_reverse] at hlen h₂
  exact dropWhile_eq_self_of_length _ _ (by omega)

theorem stripList_fixed_back (l : List Char) (h : stripList l = l) :
    l.reverse.dropWhile Char.isWhitespace = l.reverse := by
  have hfront := stripList_fixed_front l h
  unfold stripList at h
  rw [hfront] at h
  have := congrArg List.reverse h
  simpa using this

theorem stripList_of_ends (l : List Char)
    (hf : l.dropWhile Char.isWhitespace = l)
    (hb : l.reverse.dropWhile Char.isWhitespace = l.reverse) :
    stripList l = l := by
  unfold stripList
  rw [hf, hb]
  simp

/-- Stripping a newline-joined pair of already-stripped non-empty strings
changes nothing. -/
theorem stripList_middle (la lb : List Char)
    (ha : stripList la = la) (hb : stripList lb = lb)
    (hna : la ≠ []) (hnb : lb ≠ []) :
    stripList (la ++ '\n' :: lb) = la ++ '\n' :: lb := by
  apply stripList_of_ends
  · exact dropWhile_append_of_fixed _ la ('\n' :: lb)
      (stripList_fixed_front la ha) hna
  · have h₂ : (la ++ '\n' :: lb).reverse = lb.reverse ++ '\n' :: la.reverse := by
      simp
    rw [h₂]
    exact dropWhile_append_of_fixed _ lb.reverse ('\n' :: la.reverse)
      (stripList_fixed_back lb hb) (by simpa using hnb)

theorem pyStrip_eq_self_iff (s : String) :
    pyStrip s = s ↔ stripList s.data = s.data := by
  unfold pyStrip
  rw [String.ext_iff]

theorem pyStrip_join_two (a b : String) (ha : pyStrip a = a) (hb : pyStrip b = b)
    (hna : a ≠ "") (hnb : b ≠ "") :
    pyStrip (a ++ "\n" ++ b) = a ++ "\n" ++ b := by
  rw [pyStrip_eq_self_iff] at ha hb ⊢
  have hnl : ("\n" : String).data = ['\n'] := by decide
  have hdata : (a ++ "\n" ++ b).data = a.data ++ '\n' :: b.data := by
    rw [str_data_append, str_data_append, hnl]
    simp
  rw [hdata]
  exact stripList_middle a.data b.data ha hb
    (fun h => hna ((str_eq_empty_iff a).2 h))
    (fun h => hnb ((str_eq_empty_iff b).2 h))

theorem take_append_of_long {α : Type} (l r : List α) (n : Nat)
    (h : n ≤ l.length) : (l ++ r).take n = l.take n := by
  induction l generalizing n with
  | nil =>
    have : n = 0 := Nat.le_zero.mp h
    simp [this]
  | cons a t ih =>
    cases n with
    | zero => simp
    | succ m =>
      simp only [List.cons_append, List.take_succ_cons]
      rw [ih m (Nat.le_of_succ_le_succ h)]

/-- Every error-tagged placeholder carries the tag. -/
theorem errorTag_isErrorTagged (style msg : String) :
    isErrorTagged (errorTag style msg) := by
  unfold isErrorTagged errorTag
  rw [str_data_append, str_data_append, str_data_append]
  rw [List.append_assoc, List.append_assoc]
  rw [take_append_of_long _ _ 8 (by decide)]
  decide

/-- The not-requested sentinel does not carry the error tag. -/
theorem notRequested_not_isErrorTagged : ¬ isErrorTagged notRequested := by
  unfold isErrorTagged notRequested
  decide

theorem errorTag_ne_empty (style msg : String) : errorTag style msg ≠ "" := by
  unfold errorTag
  intro h
  rw [str_eq_empty_iff, str_data_append, str_data_append, str_data_append] at h
  simp only [List.append_eq_nil] at h
  exact absurd h.1.1.1 (by decide)

/-- `_generate_summary_for_style` returns the style outcome string and the
counters stepped according to whether the attempt fails. -/
theorem generate_eq (gen : String → GenResult) (st : Stats) (style : String) :
    generate_summary_for_style gen st style =
      (styleOutcome gen style, statsAfter st (attemptFails (gen style))) := by
  unfold generate_summary_for_style styleOutcome attemptFails statsAfter
  cases gen style with
  | fault msg => rfl
  | output content =>
    cases hc : (pyStrip content == "") with
    | true => simp [hc]
    | false => simp [hc]

theorem styleOutcome_ne_empty (gen : String → GenResult) (style : String) :
    styleOutcome gen style ≠ "" := by
  unfold styleOutcome
  cases gen style with
  | fault msg => exact errorTag_ne_empty style msg
  | output content =>
    cases hc : (pyStrip content == "") with
    | true =>
      simp only [hc, if_true]
      exact errorTag_ne_empty style _
    | false =>
      simp only [hc]
      simp only [Bool.false_eq_true, if_false]
      intro he
      rw [he] at hc
      simp at hc

/-- A failing attempt stores an error-tagged placeholder. -/
theorem styleOutcome_tagged_of_fails (gen : String → GenResult) (style : String)
    (h : attemptFails (gen style) = true) :
    isErrorTagged (styleOutcome gen style) := by
  unfold attemptFails at h
  unfold styleOutcome
  cases hgen : gen style with
  | fault msg => exact errorTag_isErrorTagged style msg
  | output content =>
    rw [hgen] at h
    simp only at h
    show isErrorTagged
      (if (pyStrip content == "") = true then
        errorTag style (emptyContentMsg style)
      else pyStrip content)
    rw [if_pos h]
    exact errorTag_isErrorTagged style _

theorem statsAfter_total (st : Stats) (b : Bool) :
    (statsAfter st b).total_requests = st.total_requests + 1 := by
  cases b <;> rfl

theorem statsAfter_succ (st : Stats) (b : Bool) :
    (statsAfter st b).successful_requests =
      st.successful_requests + (if b then 0 else 1) := by
  cases b <;> rfl

theorem statsAfter_failed (st : Stats) (b : Bool) :
    (statsAfter st b).failed_requests =
      st.failed_requests + (if b then 1 else 0) := by
  cases b <;> rfl

theorem dlookup_dinsert (l : List (String × String)) (k v : String) (s : String) :
    dlookup (dinsert l k v) s = if k = s then some v else dlookup l s := by
  induction l with
  | nil =>
    by_cases h : k = s <;> simp [dinsert, dlookup, h]
  | cons p rest ih =>
    obtain ⟨k₁, v₁⟩ := p
    by_cases h₁ : k₁ = k
    · subst h₁
      by_cases h : k₁ = s <;> simp [dinsert, dlookup, h]
    · by_cases h : k₁ = s
      · subst h
        have hks : ¬ k = k₁ := fun hc => h₁ hc.symm
        simp [dinsert, dlookup, h₁, hks, ih]
      · simp [dinsert, dlookup, h₁, h, ih]

/-! Fold lemmas for the per-style loop. -/

theorem foldl_styles_processed (gen : String → GenResult) (styles : List String)
    (init : LoopState) :
    (styles.foldl (processStyle gen) init).styles_processed =
      init.styles_processed ++ styles := by
  induction styles generalizing init with
  | nil => simp
  | cons s rest ih =>
    rw [List.foldl_cons, ih]
    simp [processStyle]

theorem foldl_trace (gen : String → GenResult) (styles : List String)
    (init : LoopState) :
    (styles.foldl (processStyle gen) init).trace = init.trace ++ styles := by
  induction styles generalizing init with
  | nil => simp
  | cons s rest ih =>
    rw [List.foldl_cons, ih]
    simp [processStyle]

theorem foldl_errors (gen : String → GenResult) (styles : List String)
    (init : LoopState) :
    (styles.foldl (processStyle gen) init).processing_errors =
      init.processing_errors := by
  induction styles generalizing init with
  | nil => simp
  | cons s rest ih =>
    rw [List.foldl_cons, ih]
    simp [processStyle]

theorem foldl_total (gen : String → GenResult) (styles : List String)
    (init : LoopState) :
    (styles.foldl (processStyle gen) init).stats.total_requests =
      init.stats.total_requests + styles.length := by
  induction styles generalizing init with
  | nil => simp
  | cons s rest ih =>
    rw [List.foldl_cons, ih]
    simp only [processStyle, generate_eq, List.length_cons]
    rw [statsAfter_total]
    omega

theorem succCount_add_failCount (gen : String → GenResult) (styles : List String) :
    succCount gen styles + failCount gen styles = styles.length := by
  unfold succCount failCount
  induction styles with
  | nil => simp
  | cons s rest ih =>
    by_cases h : attemptFails (gen s) = true <;>
      simp [List.filter_cons, h] <;> omega

theorem foldl_failed (gen : String → GenResult) (styles : List String)
    (init : LoopState) :
    (styles.foldl (processStyle gen) init).stats.failed_requests =
      init.stats.failed_requests + failCount gen styles := by
  induction styles generalizing init with
  | nil => simp [failCount]
  | cons s rest ih =>
    rw [List.foldl_cons, ih]
    simp only [processStyle, generate_eq]
    rw [statsAfter_failed]
    unfold failCount
    by_cases h : attemptFails (gen s) = true <;>
      (simp [List.filter_cons, h]; try omega)

theorem foldl_succ (gen : String → GenResult) (styles : List String)
    (init : LoopState) :
    (styles.foldl (processStyle gen) init).stats.successful_requests =
      init.stats.successful_requests + succCount gen styles := by
  induction styles generalizing init with
  | nil => simp [succCount]
  | cons s rest ih =>
    rw [List.foldl_cons, ih]
    simp only [processStyle, generate_eq]
    rw [statsAfter_succ]
    unfold succCount
    by_cases h : attemptFails (gen s) = true <;>
      (simp [List.filter_cons, h]; try omega)

theorem foldl_results (gen : String → GenResult) (styles : List String)
    (init : LoopState) (s : String) :
    dlookup (styles.foldl (processStyle gen) init).results s =
      if s ∈ styles then some (styleOutcome gen s)
      else dlookup init.results s := by
  induction styles generalizing init with
  | nil => simp
  | cons x rest ih =>
    rw [List.foldl_cons, ih]
    simp only [processStyle, generate_eq]
    by_cases hmem : s ∈ rest
    · simp [hmem]
    · by_cases hx : x = s
      · subst hx
        simp [hmem, dlookup_dinsert]
      · have : ¬ s ∈ x :: rest := by
          simp [List.mem_cons]
          exact ⟨fun hc => hx hc.symm, hmem⟩
        simp [hmem, this, dlookup_dinsert, hx]

theorem contains_iff_mem' (l : List String) (s : String) :
    l.contains s = true ↔ s ∈ l := List.elem_iff

theorem Stats.ext' (x y : Stats)
    (h₁ : x.total_requests = y.total_requests)
    (h₂ : x.successful_requests = y.successful_requests)
    (h₃ : x.failed_requests = y.failed_requests) : x = y := by
  cases x
  cases y
  simp only [Stats.mk.injEq]
  exact ⟨h₁, h₂, h₃⟩

theorem pyStrip_ne_empty_of_len (text : String)
    (hlen : 50 ≤ (pyStrip text).length) : pyStrip text ≠ "" := by
  intro h
  rw [h] at hlen
  exact absurd hlen (by decide)

theorem pyStrip_beq_false_of_len (text : String)
    (hlen : 50 ≤ (pyStrip text).length) : (pyStrip text == "") = false := by
  cases hbeq : pyStrip text == ""
  · rfl
  · exact absurd (eq_of_beq hbeq) (pyStrip_ne_empty_of_len text hlen)

/-- The full behaviour of `process_text` when both preconditions pass:
the call returns a fully populated result, the counters stepped by one total
per requested style split between successes and failures, and one generation
invocation per requested style in request order.  `processing_errors` is
always empty. -/
theorem process_text_ok (gen : String → GenResult) (st : Stats) (text : String)
    (styles : List String)
    (hlen : 50 ≤ (pyStrip text).length)
    (hval : ∀ s ∈ styles, s ∈ catalog) :
    process_text gen st text (some styles) =
      (.ok { didactic :=
               if "didactic" ∈ styles then styleOutcome gen "didactic"
               else notRequested
             client :=
               if "client" ∈ styles then styleOutcome gen "client"
               else notRequested
             developers :=
               if "developers" ∈ styles then styleOutcome gen "developers"
               else notRequested
             management :=
               if "management" ∈ styles then styleOutcome gen "management"
               else notRequested
             original_text := text
             metadata := { input_length := text.length
                           input_words := pyWordCount text
                           styles_processed := styles
                           processing_errors := [] } },
       { total_requests := st.total_requests + styles.length
         successful_requests := st.successful_requests + succCount gen styles
         failed_requests := st.failed_requests + failCount gen styles },
       styles) := by
  have hb := pyStrip_beq_false_of_len text hlen
  have hfilter : styles.filter (fun s => !(catalog.contains s)) = [] := by
    rw [List.filter_eq_nil_iff]
    intro s hs
    simp [contains_iff_mem']
    exact hval s hs
  have hslot : ∀ s,
      finalSlot (styles.foldl (processStyle gen) ⟨[], [], [], st, []⟩).results s =
        if s ∈ styles then styleOutcome gen s else notRequested := by
    intro s
    unfold finalSlot
    rw [foldl_results]
    by_cases h : s ∈ styles
    · simp [h]
    · simp [h, dlookup]
  have hstats : (styles.foldl (processStyle gen) ⟨[], [], [], st, []⟩).stats =
      { total_requests := st.total_requests + styles.length
        successful_requests := st.successful_requests + succCount gen styles
        failed_requests := st.failed_requests + failCount gen styles } := by
    apply Stats.ext'
    · rw [foldl_total]
    · rw [foldl_succ]
    · rw [foldl_failed]
  have htrace : (styles.foldl (processStyle gen) ⟨[], [], [], st, []⟩).trace =
      styles := by
    rw [foldl_trace]
    rfl
  have hsp : (styles.foldl (processStyle gen)
      ⟨[], [], [], st, []⟩).styles_processed = styles := by
    rw [foldl_styles_processed]
    rfl
  have hpe : (styles.foldl (processStyle gen)
      ⟨[], [], [], st, []⟩).processing_errors = [] := by
    rw [foldl_errors]
  unfold process_text
  rw [hb]
  simp only [Bool.false_eq_true, if_false]
  rw [if_neg (by omega)]
  simp only [Option.getD_some]
  rw [hfilter]
  simp only [List.isEmpty_nil, Bool.not_true, Bool.false_eq_true, if_false]
  rw [hslot "didactic", hslot "client", hslot "developers", hslot "management",
    hstats, htrace, hsp, hpe]

/-- A `None` style request behaves as a request for the whole catalog. -/
theorem process_text_none (gen : String → GenResult) (st : Stats)
    (text : String) :
    process_text gen st text none = process_text gen st text (some catalog) :=
  rfl

/-- A trimmed input shorter than 50 characters fails before the loop with an
input-too-short error, unchanged counters and no invocation. -/
theorem process_text_short (gen : String → GenResult) (st : Stats)
    (text : String) (so : Option (List String))
    (h : (pyStrip text).length < 50) :
    ∃ m, process_text gen st text so = (.error (.inputTooShort m), st, []) := by
  unfold process_text
  by_cases h0 : (pyStrip text == "") = true
  · rw [if_pos h0]
    exact ⟨_, rfl⟩
  · rw [if_neg h0, if_pos h]
    exact ⟨_, rfl⟩

/-- A request naming an id outside the catalog (with an acceptable text)
fails before the loop with an invalid-style error naming the offending ids,
unchanged counters and no invocation. -/
theorem process_text_invalid (gen : String → GenResult) (st : Stats)
    (text : String) (ss : List String)
    (hlen : 50 ≤ (pyStrip text).length)
    (hbad : ∃ s ∈ ss, s ∉ catalog) :
    process_text gen st text (some ss) =
      (.error (.invalidStyle (ss.filter (fun s => !(catalog.contains s)))),
       st, []) := by
  have hb := pyStrip_beq_false_of_len text hlen
  have hne : ¬ (ss.filter (fun s => !(catalog.contains s))).isEmpty = true := by
    obtain ⟨s, hs, hsbad⟩ := hbad
    rw [List.isEmpty_iff]
    intro hnil
    have : s ∈ ss.filter (fun s => !(catalog.contains s)) := by
      rw [List.mem_filter]
      refine ⟨hs, ?_⟩
      simp [contains_iff_mem']
      exact hsbad
    rw [hnil] at this
    exact absurd this (List.not_mem_nil s)
  unfold process_text
  rw [hb]
  simp only [Bool.false_eq_true, if_false]
  rw [if_neg (by omega)]
  simp only [Option.getD_some]
  rw [if_pos (by simpa using hne)]

/-! Lemmas about the format extractor. -/

theorem ne_empty_of_beq_false (s : String) (h : (s == "") = false) : s ≠ "" := by
  intro hc
  rw [hc] at h
  simp at h

theorem beq_empty_eq_false_of_ne (s : String) (h : s ≠ "") : (s == "") = false := by
  cases hbeq : s == ""
  · rfl
  · exact absurd (eq_of_beq hbeq) h

theorem append_ne_empty_left (a b : String) (h : a ≠ "") : a ++ b ≠ "" := by
  intro hc
  rw [str_eq_empty_iff, str_data_append, List.append_eq_nil] at hc
  exact h ((str_eq_empty_iff a).2 hc.1)

theorem txtAttempt_ok_ne_empty (d : Encoding → Option String)
    (es : List Encoding) (t : String) (h : txtAttempt d es = .ok t) :
    t ≠ "" := by
  induction es with
  | nil => simp [txtAttempt] at h
  | cons e rest ih =>
    rw [txtAttempt] at h
    cases hd : d e with
    | none =>
      rw [hd] at h
      exact ih h
    | some s =>
      rw [hd] at h
      simp only at h
      cases hb : (pyStrip s == "") with
      | true =>
        rw [hb] at h
        simp at h
      | false =>
        rw [hb] at h
        simp only [Bool.false_eq_true, if_false] at h
        injection h with h'
        subst h'
        exact ne_empty_of_beq_false _ hb

theorem pdf_ok_ne_empty (fs : FileSystem) (path t : String)
    (h : extract_text_from_pdf fs path = .ok t) : t ≠ "" := by
  unfold extract_text_from_pdf at h
  by_cases he : fs.pathExists path = true
  · rw [if_pos he] at h
    cases hp : fs.pdfPages path with
    | none =>
      rw [hp] at h
      simp at h
    | some pages =>
      rw [hp] at h
      simp only at h
      cases hb : (pyStrip (joinNL (pdfCollect pages)) == "") with
      | true =>
        rw [hb] at h
        simp at h
      | false =>
        rw [hb] at h
        simp only [Bool.false_eq_true, if_false] at h
        injection h with h'
        subst h'
        exact ne_empty_of_beq_false _ hb
  · rw [if_neg he] at h
    simp at h

theorem docx_ok_ne_empty (fs : FileSystem) (path t : String)
    (h : extract_text_from_docx fs path = .ok t) : t ≠ "" := by
  unfold extract_text_from_docx at h
  by_cases he : fs.pathExists path = true
  · rw [if_pos he] at h
    cases hp : fs.docxDoc path with
    | none =>
      rw [hp] at h
      simp at h
    | some doc =>
      rw [hp] at h
      simp only at h
      cases hb : (pyStrip (joinNL
          ((doc.1.map pyStrip).filter (fun s => !(s == "")) ++
            (((doc.2.map (fun rows => rows.flatten)).flatten).map pyStrip).filter
              (fun s => !(s == "")))) == "") with
      | true =>
        rw [hb] at h
        simp at h
      | false =>
        rw [hb] at h
        simp only [Bool.false_eq_true, if_false] at h
        injection h with h'
        subst h'
        exact ne_empty_of_beq_false _ hb
  · rw [if_neg he] at h
    simp at h

theorem performExtraction_ok_ne_empty (fs : FileSystem) (path t : String)
    (h : performExtraction fs path = .ok t) : t ≠ "" := by
  simp only [performExtraction] at h
  split_ifs at h
  · exact pdf_ok_ne_empty fs path t h
  · exact docx_ok_ne_empty fs path t h
  · exact txtAttempt_ok_ne_empty (fs.txtDecode path) encodings t
      (by
        unfold extract_text_from_txt at h
        by_cases he : fs.pathExists path = true
        · rwa [if_pos he] at h
        · rw [if_neg he] at h
          simp at h)

theorem cacheHit_some_inv (st : DPState) (path t : String)
    (h : cacheHit st path = some t) : st = ⟨some path, some t⟩ ∧ t ≠ "" := by
  unfold cacheHit at h
  obtain ⟨lpf, lxt⟩ := st
  cases lpf with
  | none => simp at h
  | some p =>
    cases lxt with
    | none => simp at h
    | some u =>
      simp only at h
      by_cases hcond : p = path ∧ ¬ u = ""
      · rw [if_pos hcond] at h
        injection h with h'
        subst h'
        exact ⟨by rw [hcond.1], hcond.2⟩
      · rw [if_neg hcond] at h
        cases h

theorem cacheHit_self (path t : String) (ht : t ≠ "") :
    cacheHit ⟨some path, some t⟩ path = some t := by
  simp [cacheHit, ht]

theorem cacheHit_ne (p q t : String) (h : p ≠ q) :
    cacheHit ⟨some p, some t⟩ q = none := by
  simp [cacheHit, h]

theorem extract_text_supported (fs : FileSystem) (st : DPState) (path : String)
    (hsup : is_supported_format path = true) :
    extract_text fs st path =
      (match cacheHit st path with
       | some t => (.ok t, st)
       | none =>
         match performExtraction fs path with
         | .ok t => (.ok t, ⟨some path, some t⟩)
         | .error e => (.error e, st)) := by
  unfold extract_text
  rw [hsup]
  rfl

theorem extract_text_unsupported (fs : FileSystem) (st : DPState) (path : String)
    (hsup : is_supported_format path = false) :
    extract_text fs st path =
      (.error (.unsupportedFormat (lowerStr (pathSuffix path))), st) := by
  unfold extract_text
  rw [hsup]
  rfl

/-- A successful `extract_text` call always leaves the cache slot holding the
requested path and the returned non-empty text. -/
theorem extract_text_ok_inv (fs : FileSystem) (st : DPState) (path t : String)
    (h : (extract_text fs st path).1 = .ok t) :
    (extract_text fs st path).2 = ⟨some path, some t⟩ ∧ t ≠ "" ∧
      is_supported_format path = true := by
  by_cases hsup : is_supported_format path = true
  · rw [extract_text_supported fs st path hsup] at h ⊢
    cases hc : cacheHit st path with
    | some u =>
      rw [hc] at h
      have h' : u = t := by injection h
      subst h'
      obtain ⟨hst, hne⟩ := cacheHit_some_inv st path u hc
      exact ⟨hst, hne, hsup⟩
    | none =>
      rw [hc] at h
      cases hperf : performExtraction fs path with
      | ok u =>
        rw [hperf] at h
        have h' : u = t := by injection h
        subst h'
        exact ⟨rfl, performExtraction_ok_ne_empty fs path u hperf, hsup⟩
      | error e =>
        rw [hperf] at h
        exact Except.noConfusion h
  · have hfalse : is_supported_format path = false := by
      cases hcase : is_supported_format path
      · rfl
      · exact absurd hcase hsup
    rw [extract_text_unsupported fs st path hfalse] at h
    exact Except.noConfusion h

/-! ### Claim theorems -/

/-- C1, counterexample to the claim as stated: with the generation capability
stubbed to fail only for `management` and all four styles requested, the
failure counter grows by exactly 1 and the total counter by exactly 4 as
claimed, but `processing_errors` has length 0, not 1 — the loop's `except`
branch (the only writer of `processing_errors`) never fires because
`_generate_summary_for_style` swallows its own failures. -/
theorem C1_counterexample :
    (process_text gen0 Stats.init text0 none).1.toOption.map
        (fun r => r.metadata.processing_errors.length) = some 0 ∧
    (process_text gen0 Stats.init text0 none).1.toOption.map
        (fun r => r.metadata.processing_errors.length) ≠ some 1 ∧
    (process_text gen0 Stats.init text0 none).2.1 =
      { total_requests := 4, successful_requests := 3, failed_requests := 1 } :=
  ⟨by decide, by decide, by decide⟩

/-- C1 (amended): with preconditions passing, all four styles requested, and
the generation attempt failing exactly for `management` (capability fault or
empty output), the orchestrator increments the failure counter by exactly 1
and the total counter by exactly 4, stores an error-tagged placeholder in the
`management` slot, continues with every requested style (all four appear in
`styles_processed`) — but appends nothing to `processing_errors`, which stays
empty. -/
theorem C1_thm (gen : String → GenResult) (st : Stats) (text : String)
    (hlen : 50 ≤ (pyStrip text).length)
    (h₁ : attemptFails (gen "didactic") = false)
    (h₂ : attemptFails (gen "client") = false)
    (h₃ : attemptFails (gen "developers") = false)
    (h₄ : attemptFails (gen "management") = true) :
    ∃ r, (process_text gen st text none).1 = .ok r ∧
      r.metadata.processing_errors = [] ∧
      r.metadata.styles_processed = catalog ∧
      r.management = styleOutcome gen "management" ∧
      isErrorTagged r.management ∧
      (process_text gen st text none).2.1 =
        { total_requests := st.total_requests + 4
          successful_requests := st.successful_requests + 3
          failed_requests := st.failed_requests + 1 } := by
  rw [process_text_none]
  rw [process_text_ok gen st text catalog hlen (fun s hs => hs)]
  have hmem : ("management" : String) ∈ catalog := by decide
  refine ⟨_, rfl, rfl, rfl, ?_, ?_, ?_⟩
  · show (if "management" ∈ catalog then styleOutcome gen "management"
      else notRequested) = styleOutcome gen "management"
    rw [if_pos hmem]
  · show isErrorTagged (if "management" ∈ catalog then
      styleOutcome gen "management" else notRequested)
    rw [if_pos hmem]
    exact styleOutcome_tagged_of_fails gen "management" h₄
  · apply Stats.ext'
    · show st.total_requests + catalog.length = st.total_requests + 4
      rfl
    · show st.successful_requests + succCount gen catalog =
        st.successful_requests + 3
      simp [succCount, catalog, List.filter_cons, h₁, h₂, h₃, h₄]
    · show st.failed_requests + failCount gen catalog =
        st.failed_requests + 1
      simp [failCount, catalog, List.filter_cons, h₁, h₂, h₃, h₄]

/-- C1, witness for the amended theorem at the stubbed capability `gen0`. -/
theorem C1_witness :
    ∃ r, (process_text gen0 Stats.init text0 none).1 = .ok r ∧
      r.metadata.processing_errors = [] ∧
      r.metadata.styles_processed = catalog ∧
      r.management = styleOutcome gen0 "management" ∧
      isErrorTagged r.management ∧
      (process_text gen0 Stats.init text0 none).2.1 =
        { total_requests := Stats.init.total_requests + 4
          successful_requests := Stats.init.successful_requests + 3
          failed_requests := Stats.init.failed_requests + 1 } :=
  C1_thm gen0 Stats.init text0 (by decide) (by decide) (by decide) (by decide)
    (by decide)

/-- C2: once the preconditions pass, `process_text` always returns a
`ProcessingResult`; every one of the four slots is populated (requested
styles hold their generation outcome — generated text or error-tagged
string — the others hold the not-requested sentinel, and no slot is the
empty string), the sentinel is distinguishable from an error-tagged slot, and
for a request of only `client` the metadata's `styles_processed` equals
`["client"]` while the other three slots hold the sentinel. -/
theorem C2_thm (gen : String → GenResult) (st : Stats) (text : String)
    (styles : List String)
    (hlen : 50 ≤ (pyStrip text).length)
    (hval : ∀ s ∈ styles, s ∈ catalog) :
    (∃ r, (process_text gen st text (some styles)).1 = .ok r ∧
      (∀ cs ∈ catalog, slotOf r cs =
        if cs ∈ styles then styleOutcome gen cs else notRequested) ∧
      (∀ cs ∈ catalog, slotOf r cs ≠ "") ∧
      ¬ isErrorTagged notRequested) ∧
    (∃ r₂, (process_text gen st text (some ["client"])).1 = .ok r₂ ∧
      r₂.metadata.styles_processed = ["client"] ∧
      r₂.client = styleOutcome gen "client" ∧
      r₂.didactic = notRequested ∧ r₂.developers = notRequested ∧
      r₂.management = notRequested) := by
  constructor
  · rw [process_text_ok gen st text styles hlen hval]
    refine ⟨_, rfl, ?_, ?_, notRequested_not_isErrorTagged⟩
    · intro cs hcs
      fin_cases hcs <;> simp [slotOf]
    · intro cs hcs
      have hslot : slotOf
          { didactic :=
              if "didactic" ∈ styles then styleOutcome gen "didactic"
              else notRequested
            client :=
              if "client" ∈ styles then styleOutcome gen "client"
              else notRequested
            developers :=
              if "developers" ∈ styles then styleOutcome gen "developers"
              else notRequested
            management :=
              if "management" ∈ styles then styleOutcome gen "management"
              else notRequested
            original_text := text
            metadata := { input_length := text.length
                          input_words := pyWordCount text
                          styles_processed := styles
                          processing_errors := [] } } cs =
          if cs ∈ styles then styleOutcome gen cs else notRequested := by
        fin_cases hcs <;> simp [slotOf]
      rw [hslot]
      by_cases hm : cs ∈ styles
      · rw [if_pos hm]
        exact styleOutcome_ne_empty gen cs
      · rw [if_neg hm]
        decide
  · rw [process_text_ok gen st text ["client"] hlen
      (by intro s hs; simp only [List.mem_singleton] at hs; subst hs; decide)]
    refine ⟨_, rfl, rfl, ?_, ?_, ?_, ?_⟩
    · show (if "client" ∈ ["client"] then styleOutcome gen "client"
        else notRequested) = styleOutcome gen "client"
      rw [if_pos (by decide)]
    · show (if "didactic" ∈ ["client"] then styleOutcome gen "didactic"
        else notRequested) = notRequested
      rw [if_neg (by decide)]
    · show (if "developers" ∈ ["client"] then styleOutcome gen "developers"
        else notRequested) = notRequested
      rw [if_neg (by decide)]
    · show (if "management" ∈ ["client"] then styleOutcome gen "management"
        else notRequested) = notRequested
      rw [if_neg (by decide)]

/-- C2, witness at the stubbed capability `gen0` with the full catalog
requested. -/
theorem C2_witness :
    (∃ r, (process_text gen0 Stats.init text0 (some catalog)).1 = .ok r ∧
      (∀ cs ∈ catalog, slotOf r cs =
        if cs ∈ catalog then styleOutcome gen0 cs else notRequested) ∧
      (∀ cs ∈ catalog, slotOf r cs ≠ "") ∧
      ¬ isErrorTagged notRequested) ∧
    (∃ r₂, (process_text gen0 Stats.init text0 (some ["client"])).1 = .ok r₂ ∧
      r₂.metadata.styles_processed = ["client"] ∧
      r₂.client = styleOutcome gen0 "client" ∧
      r₂.didactic = notRequested ∧ r₂.developers = notRequested ∧
      r₂.management = notRequested) :=
  C2_thm gen0 Stats.init text0 catalog (by decide) (fun s hs => hs)

/-- C3, counterexample to the claim as stated: for the request
`["management", "didactic"]` the generation invocations are issued in request
order (`management` first), not in catalog order (`didactic` first). -/
theorem C3_counterexample :
    (process_text gen0 Stats.init text0
        (some ["management", "didactic"])).2.2 =
      ["management", "didactic"] ∧
    catalog.filter (fun s => (["management", "didactic"] : List String).contains s) =
      ["didactic", "management"] ∧
    (process_text gen0 Stats.init text0
        (some ["management", "didactic"])).2.2 ≠
      catalog.filter (fun s => (["management", "didactic"] : List String).contains s) :=
  ⟨by decide, by decide, by decide⟩

/-- C3 (amended): the generation invocations of one `process_text` call are
issued one at a time, sequentially, in the order the styles are listed in the
request; for the default request (`None`, all four styles) this order is the
catalog order. -/
theorem C3_thm (gen : String → GenResult) (st : Stats) (text : String)
    (styles : List String)
    (hlen : 50 ≤ (pyStrip text).length)
    (hval : ∀ s ∈ styles, s ∈ catalog) :
    (process_text gen st text (some styles)).2.2 = styles ∧
    (process_text gen st text none).2.2 = catalog := by
  constructor
  · rw [process_text_ok gen st text styles hlen hval]
  · rw [process_text_none,
      process_text_ok gen st text catalog hlen (fun s hs => hs)]

/-- C3, witness for the amended theorem at a request in non-catalog order. -/
theorem C3_witness :
    (process_text gen0 Stats.init text0
        (some ["management", "didactic"])).2.2 = ["management", "didactic"] ∧
    (process_text gen0 Stats.init text0 none).2.2 = catalog :=
  C3_thm gen0 Stats.init text0 ["management", "didactic"] (by decide)
    (by decide)

/-- C4: `process_text` checks its preconditions before any generation
attempt: a trimmed text shorter than 50 characters fails with the
input-too-short `ValueError` (for any requested styles), a request naming ids
outside the catalog (with acceptable text) fails with the invalid-style
`ValueError` naming exactly the offending ids, and in both cases the counters
are unchanged and no generation invocation is issued; with acceptable text
(length exactly 50 included, since the check is strict `< 50`) and valid
styles the call succeeds. -/
theorem C4_thm (gen : String → GenResult) (st : Stats) (text : String)
    (ss : List String) :
    ((pyStrip text).length < 50 →
      ∃ m, process_text gen st text (some ss) =
          (.error (.inputTooShort m), st, []) ∧
        process_text gen st text none = (.error (.inputTooShort m), st, [])) ∧
    (50 ≤ (pyStrip text).length → (∃ s ∈ ss, s ∉ catalog) →
      process_text gen st text (some ss) =
        (.error (.invalidStyle (ss.filter (fun s => !(catalog.contains s)))),
         st, []) ∧
      (∀ s, s ∈ ss.filter (fun s => !(catalog.contains s)) ↔
        s ∈ ss ∧ s ∉ catalog)) ∧
    (50 ≤ (pyStrip text).length → (∀ s ∈ ss, s ∈ catalog) →
      ∃ r st' tr, process_text gen st text (some ss) = (.ok r, st', tr)) := by
  refine ⟨?_, ?_, ?_⟩
  · intro h
    by_cases h0 : (pyStrip text == "") = true
    · refine ⟨"Testo di input vuoto o non valido", ?_, ?_⟩
      · unfold process_text
        rw [if_pos h0]
      · unfold process_text
        rw [if_pos h0]
    · refine ⟨"Testo troppo corto (minimo 50 caratteri)", ?_, ?_⟩
      · unfold process_text
        rw [if_neg h0]
        rw [if_pos h]
      · unfold process_text
        rw [if_neg h0]
        rw [if_pos h]
  · intro hlen hbad
    refine ⟨process_text_invalid gen st text ss hlen hbad, ?_⟩
    intro s
    rw [List.mem_filter]
    constructor
    · rintro ⟨hs, hf⟩
      refine ⟨hs, ?_⟩
      intro hmem
      rw [(contains_iff_mem' catalog s).2 hmem] at hf
      simp at hf
    · rintro ⟨hs, hnm⟩
      refine ⟨hs, ?_⟩
      cases hc : catalog.contains s
      · rfl
      · exact absurd ((contains_iff_mem' catalog s).1 hc) hnm
  · intro hlen hval
    exact ⟨_, _, _, process_text_ok gen st text ss hlen hval⟩

/-- C4, witness: a 12-character text is rejected as too short with untouched
counters, a request containing `bogus` is rejected naming it, and an accepted
call succeeds. -/
theorem C4_witness :
    (∃ m, process_text gen0 Stats.init "troppo corto" (some ["client"]) =
        (.error (.inputTooShort m), Stats.init, []) ∧
      process_text gen0 Stats.init "troppo corto" none =
        (.error (.inputTooShort m), Stats.init, [])) ∧
    (process_text gen0 Stats.init text0 (some ["client", "bogus"]) =
        (.error (.invalidStyle ((["client", "bogus"] : List String).filter
          (fun s => !(catalog.contains s)))), Stats.init, []) ∧
      (∀ s, s ∈ (["client", "bogus"] : List String).filter
          (fun s => !(catalog.contains s)) ↔
        s ∈ (["client", "bogus"] : List String) ∧ s ∉ catalog)) ∧
    (∃ r st' tr, process_text gen0 Stats.init text0 (some ["client"]) =
      (.ok r, st', tr)) :=
  ⟨(C4_thm gen0 Stats.init "troppo corto" ["client"]).1 (by decide),
   (C4_thm gen0 Stats.init text0 ["client", "bogus"]).2.1 (by decide)
     ⟨"bogus", by decide, by decide⟩,
   (C4_thm gen0 Stats.init text0 ["client"]).2.2 (by decide) (by decide)⟩

/-- C5, counterexample to the claim as stated: for a text file decoding to a
single blank under every encoding, the code fails at the first encoding with
the empty-file read error, while the chain the claim describes (skip an
encoding whose stripped content is empty, fail with the decoding failure only
after exhausting the chain) yields the decoding failure — the two disagree,
so the extraction loop does not implement the claimed chain. -/
theorem C5_counterexample :
    extract_text_from_txt fsBlank "a.txt" = .error (.extractionEmpty "txt") ∧
    txtFallbackSpec (fsBlank.txtDecode "a.txt") encodings =
      .error .decodingFailure ∧
    extract_text_from_txt fsBlank "a.txt" ≠
      txtFallbackSpec (fsBlank.txtDecode "a.txt") encodings :=
  ⟨by decide, by decide, by decide⟩

/-- C5 (amended): `extract_text_from_txt` tries utf-8, utf-16, latin-1,
cp1252 in that fixed order; an encoding that raises a decode error passes to
the next one, and the first encoding that decodes determines the outcome: its
non-empty stripped content is the result, while content that strips to empty
fails the extraction immediately with the empty-file read error (not the
decoding failure, and without trying later encodings); the decoding failure
arises only when every encoding of the chain fails to decode.  In particular
a file invalid as UTF-8 and UTF-16 but decoding under Latin-1 to non-empty
content extracts successfully with that content. -/
theorem C5_thm (fs : FileSystem) (path s : String)
    (hex : fs.pathExists path = true) :
    (fs.txtDecode path .utf8 = none → fs.txtDecode path .utf16 = none →
      fs.txtDecode path .latin1 = some s → pyStrip s ≠ "" →
      extract_text_from_txt fs path = .ok (pyStrip s)) ∧
    ((∀ e, fs.txtDecode path e = none) →
      extract_text_from_txt fs path = .error .decodingFailure) ∧
    (fs.txtDecode path .utf8 = some s → pyStrip s = "" →
      extract_text_from_txt fs path = .error (.extractionEmpty "txt")) := by
  unfold extract_text_from_txt
  rw [if_pos hex]
  refine ⟨?_, ?_, ?_⟩
  · intro h8 h16 hl hne
    simp only [encodings, txtAttempt, h8, h16, hl]
    rw [if_neg (by rw [beq_empty_eq_false_of_ne _ hne]; exact Bool.false_ne_true)]
  · intro hall
    simp only [encodings, txtAttempt, hall .utf8, hall .utf16, hall .latin1,
      hall .cp1252]
  · intro h8 hempty
    simp only [encodings, txtAttempt, h8]
    rw [if_pos (by rw [hempty]; rfl)]

/-- C5, witness for the amended theorem: the Latin-1 fallback succeeds, an
undecodable file yields the decoding failure, and a blank file yields the
empty-file error at the first encoding. -/
theorem C5_witness :
    extract_text_from_txt (fsLatin "contenuto latino") "a.txt" =
      .ok (pyStrip "contenuto latino") ∧
    extract_text_from_txt fsUndecodable "a.txt" = .error .decodingFailure ∧
    extract_text_from_txt fsBlank "b.txt" = .error (.extractionEmpty "txt") :=
  ⟨(C5_thm (fsLatin "contenuto latino") "a.txt" "contenuto latino"
      (by decide)).1 (by decide) (by decide) (by decide) (by decide),
   (C5_thm fsUndecodable "a.txt" "" (by decide)).2.1 (fun _ => rfl),
   (C5_thm fsBlank "b.txt" " " (by decide)).2.2 rfl (by decide)⟩

/-- C6: `extract_text` on the same path as the immediately preceding
successful call returns the cached text without re-reading — the second call
returns the first call's text for any file-system state, including a mutated
backing file — while a call on any different (supported) path performs a
fresh extraction and, on success, overwrites the single cache slot; lookup is
keyed on the path only, never on content. -/
theorem C6_thm (fs fs₂ : FileSystem) (st : DPState) (p q t : String)
    (h : (extract_text fs st p).1 = .ok t) (hq : q ≠ p)
    (hsq : is_supported_format q = true) :
    (extract_text fs st p).2 = ⟨some p, some t⟩ ∧
    extract_text fs₂ ⟨some p, some t⟩ p = (.ok t, ⟨some p, some t⟩) ∧
    (extract_text fs₂ ⟨some p, some t⟩ q).1 = performExtraction fs₂ q ∧
    (∀ u, performExtraction fs₂ q = .ok u →
      extract_text fs₂ ⟨some p, some t⟩ q = (.ok u, ⟨some q, some u⟩)) := by
  obtain ⟨hst, hne, hsp⟩ := extract_text_ok_inv fs st p t h
  have hmiss : cacheHit ⟨some p, some t⟩ q = none :=
    cacheHit_ne p q t (fun hc => hq hc.symm)
  refine ⟨hst, ?_, ?_, ?_⟩
  · rw [extract_text_supported fs₂ _ p hsp, cacheHit_self p t hne]
  · rw [extract_text_supported fs₂ _ q hsq, hmiss]
    cases hperf : performExtraction fs₂ q with
    | ok u => rfl
    | error e => rfl
  · intro u hu
    rw [extract_text_supported fs₂ _ q hsq, hmiss, hu]

/-- C6, witness: a successful extraction of `a.txt` fills the cache; with the
backing file mutated, re-extracting `a.txt` still returns the original text,
while extracting `b.txt` performs a fresh read and overwrites the slot. -/
theorem C6_witness :
    (extract_text (fsTxt "hello") DPState.init "a.txt").2 =
      ⟨some "a.txt", some "hello"⟩ ∧
    extract_text (fsTxt "changed") ⟨some "a.txt", some "hello"⟩ "a.txt" =
      (.ok "hello", ⟨some "a.txt", some "hello"⟩) ∧
    (extract_text (fsTxt "changed") ⟨some "a.txt", some "hello"⟩ "b.txt").1 =
      performExtraction (fsTxt "changed") "b.txt" ∧
    (∀ u, performExtraction (fsTxt "changed") "b.txt" = .ok u →
      extract_text (fsTxt "changed") ⟨some "a.txt", some "hello"⟩ "b.txt" =
        (.ok u, ⟨some "b.txt", some u⟩)) :=
  C6_thm (fsTxt "hello") (fsTxt "changed") DPState.init "a.txt" "b.txt"
    "hello" (by decide) (by decide) (by decide)

/-- C7: the stats accessor returns `success_rate` equal to
successes over total when the total is positive and 0 when it is zero; after
three successful attempts and one failed attempt from a reset state (the
stub fails only `management`) the counters are `(4, 3, 1)` and the rate is
3/4; `reset_stats` zeroes all three counters and the rate is then 0. -/
theorem C7_thm (st : Stats) :
    (0 < st.total_requests →
      (get_processing_stats st).success_rate =
        (st.successful_requests : ℚ) / (st.total_requests : ℚ)) ∧
    (st.total_requests = 0 → (get_processing_stats st).success_rate = 0) ∧
    (catalog.foldl (fun acc style =>
        (generate_summary_for_style gen0 acc style).2) reset_stats =
      { total_requests := 4, successful_requests := 3, failed_requests := 1 }) ∧
    (get_processing_stats ⟨4, 3, 1⟩).success_rate = 3 / 4 ∧
    reset_stats =
      { total_requests := 0, successful_requests := 0,
        failed_requests := 0 } ∧
    (get_processing_stats reset_stats).success_rate = 0 := by
  refine ⟨?_, ?_, by decide, ?_, rfl, ?_⟩
  · intro h
    simp only [get_processing_stats]
    rw [if_pos h]
  · intro h
    simp only [get_processing_stats]
    rw [if_neg (by omega)]
  · norm_num [get_processing_stats]
  · norm_num [get_processing_stats, reset_stats]

/-- C7, witness at the counters `(4, 3, 1)` and at the reset counters. -/
theorem C7_witness :
    (get_processing_stats ⟨4, 3, 1⟩).success_rate =
      ((3 : ℕ) : ℚ) / ((4 : ℕ) : ℚ) ∧
    (get_processing_stats ⟨0, 0, 0⟩).success_rate = 0 :=
  ⟨(C7_thm ⟨4, 3, 1⟩).1 (by decide), (C7_thm ⟨0, 0, 0⟩).2.1 rfl⟩

/-- The outcome of `extract_text_from_pdf` on an existing, readable PDF is a
function of its page contents. -/
theorem pdf_eq (fs : FileSystem) (path : String) (pages : List (Option String))
    (he : fs.pathExists path = true) (hp : fs.pdfPages path = some pages) :
    extract_text_from_pdf fs path =
      (if (pyStrip (joinNL (pdfCollect pages)) == "") = true
       then .error (.extractionEmpty "pdf")
       else .ok (pyStrip (joinNL (pdfCollect pages)))) := by
  unfold extract_text_from_pdf
  rw [if_pos he, hp]

/-- C8: pages are processed in order; a page whose extraction raises is
skipped without failing the whole extraction (prepending a raising page
changes nothing, and a one-bad-page one-clean-page PDF yields exactly the
clean page's text); surviving pages are concatenated with newline
separators; and an empty final concatenation fails with the empty-extraction
error. -/
theorem C8_thm (fs fs₂ : FileSystem) (path : String)
    (pages : List (Option String)) (a b : String)
    (h₁ : fs.pathExists path = true) (h₂ : fs₂.pathExists path = true) :
    (fs.pdfPages path = some (none :: pages) →
      fs₂.pdfPages path = some pages →
      extract_text_from_pdf fs path = extract_text_from_pdf fs₂ path) ∧
    (fs.pdfPages path = some [none, some a] → pyStrip a = a → a ≠ "" →
      extract_text_from_pdf fs path = .ok a) ∧
    (fs.pdfPages path = some [some a, some b] → pyStrip a = a →
      pyStrip b = b → a ≠ "" → b ≠ "" →
      extract_text_from_pdf fs path = .ok (a ++ "\n" ++ b)) ∧
    (fs.pdfPages path = some pages →
      pyStrip (joinNL (pdfCollect pages)) = "" →
      extract_text_from_pdf fs path = .error (.extractionEmpty "pdf")) := by
  refine ⟨?_, ?_, ?_, ?_⟩
  · intro hp hp₂
    rw [pdf_eq fs path (none :: pages) h₁ hp,
      pdf_eq fs₂ path pages h₂ hp₂]
    rfl
  · intro hp ha hne
    rw [pdf_eq fs path [none, some a] h₁ hp]
    have hba : (pyStrip a == "") = false := by
      rw [ha]
      exact beq_empty_eq_false_of_ne a hne
    have hj : pyStrip (joinNL (pdfCollect [none, some a])) = a := by
      have hcol : pdfCollect [none, some a] = [a] := by
        simp [pdfCollect, hba]
      rw [hcol]
      show pyStrip a = a
      exact ha
    rw [hj, beq_empty_eq_false_of_ne a hne]
    simp
  · intro hp ha hb hna hnb
    rw [pdf_eq fs path [some a, some b] h₁ hp]
    have hba : (pyStrip a == "") = false := by
      rw [ha]
      exact beq_empty_eq_false_of_ne a hna
    have hbb : (pyStrip b == "") = false := by
      rw [hb]
      exact beq_empty_eq_false_of_ne b hnb
    have hj : pyStrip (joinNL (pdfCollect [some a, some b])) =
        a ++ "\n" ++ b := by
      have hcol : pdfCollect [some a, some b] = [a, b] := by
        simp [pdfCollect, hba, hbb]
      rw [hcol]
      show pyStrip (a ++ "\n" ++ b) = a ++ "\n" ++ b
      exact pyStrip_join_two a b ha hb hna hnb
    rw [hj, beq_empty_eq_false_of_ne _
      (append_ne_empty_left _ b (append_ne_empty_left a "\n" hna))]
    simp
  · intro hp hempty
    rw [pdf_eq fs path pages h₁ hp, hempty]
    simp

/-- C8, witness: the one-bad-one-clean PDF yields the clean page, prepending
the bad page changes nothing, two clean pages join with a newline, and an
all-bad PDF fails with the empty-extraction error. -/
theorem C8_witness :
    extract_text_from_pdf (fsPdf [none, some "pagina pulita"]) "a.pdf" =
      extract_text_from_pdf (fsPdf [some "pagina pulita"]) "a.pdf" ∧
    extract_text_from_pdf (fsPdf [none, some "pagina pulita"]) "a.pdf" =
      .ok "pagina pulita" ∧
    extract_text_from_pdf (fsPdf [some "uno", some "due"]) "a.pdf" =
      .ok ("uno" ++ "\n" ++ "due") ∧
    extract_text_from_pdf (fsPdf [none, none]) "a.pdf" =
      .error (.extractionEmpty "pdf") :=
  ⟨(C8_thm (fsPdf [none, some "pagina pulita"]) (fsPdf [some "pagina pulita"])
      "a.pdf" [some "pagina pulita"] "x" "y" (by decide) (by decide)).1
      rfl rfl,
   (C8_thm (fsPdf [none, some "pagina pulita"]) (fsPdf [some "pagina pulita"])
      "a.pdf" [some "pagina pulita"] "pagina pulita" "y" (by decide)
      (by decide)).2.1 rfl (by decide) (by decide),
   (C8_thm (fsPdf [some "uno", some "due"]) (fsPdf []) "a.pdf" [] "uno" "due"
      (by decide) (by decide)).2.2.1 rfl (by decide) (by decide) (by decide)
      (by decide),
   (C8_thm (fsPdf [none, none]) (fsPdf []) "a.pdf" [none, none] "x" "y"
      (by decide) (by decide)).2.2.2 rfl (by decide)⟩

/-- The counters returned by a `process_text` call are either untouched (a
precondition failed) or stepped once per requested style, split between
successes and failures. -/
theorem process_stats_cases (gen : String → GenResult) (st : Stats)
    (text : String) (so : Option (List String)) :
    (process_text gen st text so).2.1 = st ∨
    ∃ styles, (process_text gen st text so).2.1 =
      { total_requests := st.total_requests + styles.length
        successful_requests := st.successful_requests + succCount gen styles
        failed_requests := st.failed_requests + failCount gen styles } := by
  by_cases hlen : 50 ≤ (pyStrip text).length
  · cases so with
    | none =>
      right
      refine ⟨catalog, ?_⟩
      rw [process_text_none,
        process_text_ok gen st text catalog hlen (fun s hs => hs)]
    | some ss =>
      by_cases hval : ∀ s ∈ ss, s ∈ catalog
      · right
        refine ⟨ss, ?_⟩
        rw [process_text_ok gen st text ss hlen hval]
      · left
        push_neg at hval
        rw [process_text_invalid gen st text ss hlen hval]
  · left
    obtain ⟨m, hm⟩ := process_text_short gen st text so (by omega)
    rw [hm]

/-- C9: after any sequence of `process_text` calls and resets starting from
the initial counters, `total_requests = successful_requests +
failed_requests`; every generation attempt increments the total counter
exactly once and then exactly one of the success or the failure counter, and
`reset_stats` restores all three counters to zero simultaneously. -/
theorem C9_thm (evs : List OrchestratorEvent) :
    statsConsistent (evs.foldl applyEvent Stats.init) ∧
    reset_stats = Stats.init ∧
    (∀ gen st style, statsConsistent st →
      statsConsistent (generate_summary_for_style gen st style).2) ∧
    (∀ (gen : String → GenResult) (st : Stats) (style : String),
      (generate_summary_for_style gen st style).2.total_requests =
        st.total_requests + 1 ∧
      (((generate_summary_for_style gen st style).2.successful_requests =
          st.successful_requests + 1 ∧
        (generate_summary_for_style gen st style).2.failed_requests =
          st.failed_requests) ∨
       ((generate_summary_for_style gen st style).2.successful_requests =
          st.successful_requests ∧
        (generate_summary_for_style gen st style).2.failed_requests =
          st.failed_requests + 1))) := by
  have hgen : ∀ (gen : String → GenResult) (st : Stats) (style : String),
      (generate_summary_for_style gen st style).2 =
        statsAfter st (attemptFails (gen style)) := by
    intro gen st style
    rw [generate_eq]
  have hstep : ∀ st ev, statsConsistent st →
      statsConsistent (applyEvent st ev) := by
    intro st ev hc
    cases ev with
    | resetCall => rfl
    | processCall gen text styles =>
      show statsConsistent (process_text gen st text styles).2.1
      rcases process_stats_cases gen st text styles with hcase | ⟨ss, hcase⟩
      · rw [hcase]
        exact hc
      · rw [hcase]
        unfold statsConsistent at hc ⊢
        have hsum := succCount_add_failCount gen ss
        simp only
        omega
  refine ⟨?_, rfl, ?_, ?_⟩
  · have hfold : ∀ (l : List OrchestratorEvent) (st : Stats),
        statsConsistent st → statsConsistent (l.foldl applyEvent st) := by
      intro l
      induction l with
      | nil => exact fun st hc => hc
      | cons e rest ih => exact fun st hc => ih _ (hstep st e hc)
    exact hfold evs Stats.init rfl
  · intro gen st style hc
    rw [hgen gen st style]
    unfold statsConsistent at hc ⊢
    cases attemptFails (gen style)
    · show st.total_requests + 1 =
        st.successful_requests + 1 + st.failed_requests
      omega
    · show st.total_requests + 1 =
        st.successful_requests + (st.failed_requests + 1)
      omega
  · intro gen st style
    rw [hgen gen st style]
    cases attemptFails (gen style) with
    | false => exact ⟨rfl, .inl ⟨rfl, rfl⟩⟩
    | true => exact ⟨rfl, .inr ⟨rfl, rfl⟩⟩

/-- C9, witness on a concrete event trace and a concrete consistent state. -/
theorem C9_witness :
    statsConsistent
      ([OrchestratorEvent.processCall gen0 text0 none,
        OrchestratorEvent.resetCall,
        OrchestratorEvent.processCall gen0 text0 (some ["client"])].foldl
        applyEvent Stats.init) ∧
    statsConsistent (generate_summary_for_style gen0 ⟨2, 1, 1⟩ "client").2 :=
  ⟨(C9_thm [OrchestratorEvent.processCall gen0 text0 none,
      OrchestratorEvent.resetCall,
      OrchestratorEvent.processCall gen0 text0 (some ["client"])]).1,
   (C9_thm []).2.2.1 gen0 ⟨2, 1, 1⟩ "client" (by decide)⟩

/-- C10: on a cache hit (path equal to the cached path, cached text
non-empty) `extract_text` returns the cached text for any file-system state
— no existence check is performed, so the call succeeds even after the file
is deleted — and a not-found failure can only arise on a cache miss. -/
theorem C10_thm (fs : FileSystem) (p t : String)
    (hsup : is_supported_format p = true) (ht : t ≠ "") :
    extract_text fs ⟨some p, some t⟩ p = (.ok t, ⟨some p, some t⟩) ∧
    (∀ (fs' : FileSystem) (st' : DPState) (q r : String),
      (extract_text fs' st' q).1 = .error (.notFound r) →
      cacheHit st' q = none) := by
  constructor
  · rw [extract_text_supported fs _ p hsup, cacheHit_self p t ht]
  · intro fs' st' q r h
    by_cases hsq : is_supported_format q = true
    · rw [extract_text_supported fs' st' q hsq] at h
      cases hc : cacheHit st' q with
      | some u =>
        rw [hc] at h
        exact Except.noConfusion h
      | none => rfl
    · have hfalse : is_supported_format q = false := by
        cases hcase : is_supported_format q
        · rfl
        · exact absurd hcase hsq
      rw [extract_text_unsupported fs' st' q hfalse] at h
      have h' : DPError.unsupportedFormat (lowerStr (pathSuffix q)) =
          DPError.notFound r := by
        injection h
      exact DPError.noConfusion h'

/-- C10, witness: with the backing file deleted, a repeated extract on the
cached path still returns the cached text. -/
theorem C10_witness :
    extract_text fsGone ⟨some "a.txt", some "hello"⟩ "a.txt" =
      (.ok "hello", ⟨some "a.txt", some "hello"⟩) ∧
    (∀ (fs' : FileSystem) (st' : DPState) (q r : String),
      (extract_text fs' st' q).1 = .error (.notFound r) →
      cacheHit st' q = none) :=
  C10_thm fsGone "a.txt" "hello" (by decide) (by decide)

end Riassuntore
